import Mathlib

/-!
Verification of the minimal-container runtime core (gomini).

Each definition below is a shallow embedding of a function of the Go
source.  Machine integers are modelled as `Nat`/`Int`; fallible code
returns `Option`/`Except`; syscall-effectful code is modelled by
threading an explicit oracle ("world") describing the outcome of each
external operation and by returning the ordered trace of operations
the code performed.
-/

namespace Gomini

/-! ## Namespace manager (`internal/ns`, file part_001 lines 1-182) -/

/-- `NamespaceConfig` holds configuration for namespace creation
(six independent booleans). -/
structure NamespaceConfig where
  UTS   : Bool
  PID   : Bool
  Mount : Bool
  IPC   : Bool
  Net   : Bool
  User  : Bool
deriving DecidableEq, Repr

/-- Platform constants from `golang.org/x/sys/unix` (linux). -/
def CLONE_NEWUTS : Nat := 0x04000000
def CLONE_NEWPID : Nat := 0x20000000
def CLONE_NEWNS : Nat := 0x00020000
def CLONE_NEWIPC : Nat := 0x08000000
def CLONE_NEWNET : Nat := 0x40000000
def CLONE_NEWUSER : Nat := 0x10000000

/-- `CloneFlags` converts namespace configuration to clone flags:
starts from zero and ORs in each enabled member's platform flag,
in the textual order of the source. -/
def CloneFlags (nc : NamespaceConfig) : Nat :=
  let flags := 0
  let flags := if nc.UTS then flags ||| CLONE_NEWUTS else flags
  let flags := if nc.PID then flags ||| CLONE_NEWPID else flags
  let flags := if nc.Mount then flags ||| CLONE_NEWNS else flags
  let flags := if nc.IPC then flags ||| CLONE_NEWIPC else flags
  let flags := if nc.Net then flags ||| CLONE_NEWNET else flags
  let flags := if nc.User then flags ||| CLONE_NEWUSER else flags
  flags

/-- The six namespace members, used to state order-independence of
`CloneFlags`. -/
inductive NsMember | uts | pid | mount | ipc | net | user
deriving DecidableEq, Repr

/-- The platform flag constant of one member. -/
def memberFlag : NsMember → Nat
  | .uts => CLONE_NEWUTS
  | .pid => CLONE_NEWPID
  | .mount => CLONE_NEWNS
  | .ipc => CLONE_NEWIPC
  | .net => CLONE_NEWNET
  | .user => CLONE_NEWUSER

/-- Whether a member is enabled in a configuration. -/
def memberEnabled (nc : NamespaceConfig) : NsMember → Bool
  | .uts => nc.UTS
  | .pid => nc.PID
  | .mount => nc.Mount
  | .ipc => nc.IPC
  | .net => nc.Net
  | .user => nc.User

/-- The members, in the order the source considers them. -/
def allMembers : List NsMember := [.uts, .pid, .mount, .ipc, .net, .user]

/-- The list of enabled members of a configuration. -/
def enabledMembers (nc : NamespaceConfig) : List NsMember :=
  allMembers.filter (memberEnabled nc)

/-! ## `WaitForChild` status translation (part_001 lines 164-182)

`syscall.WaitStatus` on linux is a 32-bit integer; the Go standard
library defines (with `mask = 0x7F`, `stopped = 0x7F`):
`Exited w ↔ w &&& 0x7F = 0`, `ExitStatus w = (w >>> 8) &&& 0xFF`,
`Signaled w ↔ w &&& 0x7F ≠ 0x7F ∧ w &&& 0x7F ≠ 0`,
`Signal w = w &&& 0x7F`.  We model the status word as `Nat`
(`w &&& 0x7F = w % 128`, `(w >>> 8) &&& 0xFF = w / 256 % 256`). -/

def waitStatusExited (w : Nat) : Bool := w % 128 == 0

def waitStatusExitStatus (w : Nat) : Nat := w / 256 % 256

def waitStatusSignaled (w : Nat) : Bool := w % 128 != 127 && w % 128 != 0

def waitStatusSignal (w : Nat) : Nat := w % 128

/-- The status-translation logic of `WaitForChild` after a successful
`wait4`: exited → exit status; signaled → 128 + signal; otherwise the
fatal "unexpected child status" error. -/
def translateExitStatus (w : Nat) : Except String Nat :=
  if waitStatusExited w then .ok (waitStatusExitStatus w)
  else if waitStatusSignaled w then .ok (128 + waitStatusSignal w)
  else .error "wait for child: unexpected child status"

/-! ## JSON argument codec (`internal/proc/container.go` 119-131, 260-266)

`runWithPIDNamespace` transfers the argument list as
`GOMINI_ARGS = string(json.Marshal(cp.Args))`; `HandleContainerInit`
recovers it with `json.Unmarshal`.  `encodeChar` models Go's
`encoding/json` string encoder byte for byte (default HTML escaping
on, as `json.Marshal` uses): it escapes `"` and `\`, uses the short
escapes for newline / carriage return / tab, writes `\u00xx` for the
other control characters and for `<`, `>`, `&`, writes the six-character
escapes for the unicode line separators U+2028 and U+2029, and copies every other
character verbatim.  (Go additionally replaces invalid UTF-8 with
U+FFFD; Lean characters are always valid scalar values, so that case
cannot arise in the model.)  The decoder models `json.Unmarshal` into
`[]string` on array-of-strings input: it accepts every JSON string
escape, including `\uXXXX` with lone surrogates mapped to U+FFFD as
Go does.  `json.Unmarshal` also accepts insignificant whitespace,
which `json.Marshal` never emits, so omitting it does not affect
decoding of any encoder output. -/

/-- Lowercase hex digit, as Go's `encoding/json` writes. -/
def hexDigitChar (n : Nat) : Char :=
  if n < 10 then Char.ofNat (48 + n) else Char.ofNat (87 + n)

/-- Go `encoding/json` encoding of one character inside a string. -/
def encodeChar (c : Char) : List Char :=
  if c = '"' then ['\\', '"']
  else if c = '\\' then ['\\', '\\']
  else if c = '\n' then ['\\', 'n']
  else if c = '\r' then ['\\', 'r']
  else if c = '\t' then ['\\', 't']
  else if c.toNat < 0x20 ∨ c = '<' ∨ c = '>' ∨ c = '&' then
    ['\\', 'u', '0', '0', hexDigitChar (c.toNat / 16), hexDigitChar (c.toNat % 16)]
  else if c.toNat = 0x2028 then ['\\', 'u', '2', '0', '2', '8']
  else if c.toNat = 0x2029 then ['\\', 'u', '2', '0', '2', '9']
  else [c]

/-- Encoding of a string body (concatenated character encodings). -/
def encodeBody : List Char → List Char
  | [] => []
  | c :: cs => encodeChar c ++ encodeBody cs

/-- JSON encoding of one string (quoted, escaped body). -/
def encodeString (s : List Char) : List Char :=
  '"' :: (encodeBody s ++ ['"'])

/-- Comma-separated encodings of the array elements, as `json.Marshal`
emits them (no whitespace). -/
def encodeElems : List (List Char) → List Char
  | [] => []
  | [s] => encodeString s
  | s :: rest => encodeString s ++ ',' :: encodeElems rest

/-- `json.Marshal` of a `[]string` value: `[` elements `]`.  (A nil Go
slice marshals to `null` instead; the runtime's argument list is
validated non-empty by `validateConfig`, and the empty-list case here
matches a non-nil empty slice.) -/
def encodeArgs (args : List (List Char)) : List Char :=
  '[' :: (encodeElems args ++ [']'])

/-- Value of one hex digit, for `\uXXXX` escapes. -/
def parseHexDigit (c : Char) : Option Nat :=
  if 48 ≤ c.toNat ∧ c.toNat ≤ 57 then some (c.toNat - 48)
  else if 97 ≤ c.toNat ∧ c.toNat ≤ 102 then some (c.toNat - 87)
  else if 65 ≤ c.toNat ∧ c.toNat ≤ 70 then some (c.toNat - 55)
  else none

/-- The single-character JSON escapes. -/
def unescapeChar (e : Char) : Option Char :=
  if e = '"' then some '"'
  else if e = '\\' then some '\\'
  else if e = '/' then some '/'
  else if e = 'b' then some (Char.ofNat 8)
  else if e = 'f' then some (Char.ofNat 12)
  else if e = 'n' then some '\n'
  else if e = 'r' then some '\r'
  else if e = 't' then some '\t'
  else none

/-- Parse the body of a JSON string after the opening quote, up to and
including the closing quote; returns the decoded string and the
remaining input. -/
def parseStringBody : List Char → Option (List Char × List Char)
  | [] => none
  | '"' :: rest => some ([], rest)
  | '\\' :: 'u' :: h1 :: h2 :: h3 :: h4 :: rest =>
    match parseHexDigit h1, parseHexDigit h2, parseHexDigit h3, parseHexDigit h4 with
    | some a, some b, some c, some d =>
      let n := ((a * 16 + b) * 16 + c) * 16 + d
      let ch := if 0xD800 ≤ n ∧ n < 0xE000 then Char.ofNat 0xFFFD else Char.ofNat n
      (parseStringBody rest).map (fun p => (ch :: p.1, p.2))
    | _, _, _, _ => none
  | '\\' :: e :: rest =>
    match unescapeChar e with
    | some ch => (parseStringBody rest).map (fun p => (ch :: p.1, p.2))
    | none => none
  | c :: rest => (parseStringBody rest).map (fun p => (c :: p.1, p.2))

/-- Parse a non-empty comma-separated sequence of JSON strings followed
by the closing bracket.  The fuel argument bounds the recursion; the
caller passes the input length, which always suffices because every
element consumes at least one character. -/
def parseElemsF : Nat → List Char → Option (List (List Char) × List Char)
  | 0, _ => none
  | fuel + 1, cs =>
    match cs with
    | '"' :: rest =>
      match parseStringBody rest with
      | some (s, r) =>
        match r with
        | ']' :: r2 => some ([s], r2)
        | ',' :: r2 => (parseElemsF fuel r2).map (fun p => (s :: p.1, p.2))
        | _ => none
      | none => none
    | _ => none

/-- `json.Unmarshal` of a `[]string` value on the grammar `json.Marshal`
emits: a bracketed, comma-separated list of strings, with nothing after
the closing bracket. -/
def decodeArgs (input : List Char) : Option (List (List Char)) :=
  match input with
  | '[' :: ']' :: rest2 => if rest2 = [] then some [] else none
  | '[' :: rest =>
    match parseElemsF rest.length rest with
    | some (elems, r) => if r = [] then some elems else none
    | none => none
  | _ => none

/-- The `GOMINI_ARGS` value produced in `runWithPIDNamespace`:
`string(json.Marshal(cp.Args))`. -/
def marshalArgs (args : List String) : String :=
  String.mk (encodeArgs (args.map String.data))

/-- The decoding performed in `HandleContainerInit`:
`json.Unmarshal([]byte(argsStr), &args)`. -/
def unmarshalArgs (s : String) : Option (List String) :=
  (decodeArgs s.data).map (fun l => l.map String.mk)

/-! ## Command selection in `runCommand` (part_000 lines 98-109) -/

/-- The final-command selection of `runCommand`: a non-empty `--cmd`
override wins and becomes the single-element list `[cmd]`
(`finalArgs = []string{*cmd}` in the source); otherwise non-empty
positional arguments (after `--`) win; otherwise the bundle
configuration's process arguments are used. -/
def finalArgs (cmd : String) (positionalArgs bundleArgs : List String) :
    List String :=
  if cmd ≠ "" then [cmd]
  else if positionalArgs.length > 0 then positionalArgs
  else bundleArgs

/-! ## Error values (`internal/util/errors.go`)

`notFound` is the `NewPathError` carrying a "does not exist" message,
`pathErr`/`opErr` are `NewPathError`/`NewError` (and `NewSimpleError`
via `simpleErr`) with the underlying system error abstracted to a
numeric code, and `wrap` is `WrapError`, which prepends the failing
operation's name. -/

inductive GoErr
  | notFound (op path : String)
  | pathErr (op path : String) (code : Nat)
  | opErr (op : String) (code : Nat)
  | simpleErr (op msg : String)
  | wrap (op : String) (e : GoErr)
deriving DecidableEq, Repr

/-- Whether an error is (a wrapping of) a not-found error. -/
def GoErr.isNotFound : GoErr → Bool
  | .notFound _ _ => true
  | .wrap _ e => e.isNotFound
  | _ => false

/-- `filepath.Join` on two components.  (`filepath.Join` additionally
cleans the result; none of the paths built here need cleaning.) -/
def joinPath (a b : String) : String := a ++ "/" ++ b

/-- `filepath.IsAbs` on linux. -/
def isAbsPath (p : String) : Bool := p.startsWith "/"

/-! ## Rootfs manager (`internal/fs/rootfs.go`)

Syscall-effectful functions are modelled against an `FsWorld` oracle
giving each external operation's outcome, and return the result
together with the ordered trace of operations actually performed. -/

/-- Outcomes of the external operations the rootfs manager performs.
`none` means the operation succeeds; `some code` that it fails with
the given system error. -/
structure FsWorld where
  rootfsExists : Bool
  mkdirOldRootErr : Option Nat
  pivotErr : Option Nat
  chdirNewRootErr : Option Nat
  unmountOldErr : Option Nat
  removeOldErr : Option Nat
  chdirRootfsErr : Option Nat
  chrootErr : Option Nat
  chdirSlashErr : Option Nat
deriving DecidableEq, Repr

/-- The operations the rootfs manager can perform, in trace order. -/
inductive FsOp
  | statRootfs
  | mkdirOldRoot
  | pivotSyscall
  | chdirNewRoot
  | unmountOldRoot
  | removeOldRoot
  | chdirRootfs
  | chrootSyscall
  | chdirSlash
deriving DecidableEq, Repr

/-- `PrepareRootfs`: stat the rootfs path (fail not-found if absent),
then create the `.old_root` staging directory inside it. -/
def PrepareRootfs (path : String) (w : FsWorld) : Option GoErr × List FsOp :=
  if !w.rootfsExists then
    (some (.notFound "prepare rootfs" path), [.statRootfs])
  else
    match w.mkdirOldRootErr with
    | some code =>
      (some (.pathErr "create old_root" (joinPath path ".old_root") code),
        [.statRootfs, .mkdirOldRoot])
    | none => (none, [.statRootfs, .mkdirOldRoot])

/-- `PivotRoot`: pivot_root syscall, then chdir to the new root; the
unmount and removal of the staging path are attempted afterwards but
are warnings only (their outcome never affects the result). -/
def PivotRoot (w : FsWorld) : Option GoErr × List FsOp :=
  match w.pivotErr with
  | some code => (some (.opErr "pivot_root" code), [.pivotSyscall])
  | none =>
    match w.chdirNewRootErr with
    | some code =>
      (some (.opErr "chdir to new root" code), [.pivotSyscall, .chdirNewRoot])
    | none =>
      (none, [.pivotSyscall, .chdirNewRoot, .unmountOldRoot, .removeOldRoot])

/-- `ChrootFallback`: chdir into the rootfs, chroot to `.`, chdir to
`/`. -/
def ChrootFallback (path : String) (w : FsWorld) : Option GoErr × List FsOp :=
  match w.chdirRootfsErr with
  | some code => (some (.pathErr "chdir to rootfs" path code), [.chdirRootfs])
  | none =>
    match w.chrootErr with
    | some code => (some (.opErr "chroot" code), [.chdirRootfs, .chrootSyscall])
    | none =>
      match w.chdirSlashErr with
      | some code =>
        (some (.opErr "chdir to / after chroot" code),
          [.chdirRootfs, .chrootSyscall, .chdirSlash])
      | none => (none, [.chdirRootfs, .chrootSyscall, .chdirSlash])

/-- `SwitchRoot`: `PrepareRootfs` (failure wrapped "prepare rootfs"),
then `PivotRoot`; on pivot failure the error is only logged and
`ChrootFallback` runs instead, whose failure alone (wrapped "chroot
fallback") makes `SwitchRoot` fail. -/
def SwitchRoot (path : String) (w : FsWorld) : Option GoErr × List FsOp :=
  match PrepareRootfs path w with
  | (some e, ops) => (some (.wrap "prepare rootfs" e), ops)
  | (none, ops1) =>
    match PivotRoot w with
    | (none, ops2) => (none, ops1 ++ ops2)
    | (some _, ops2) =>
      match ChrootFallback path w with
      | (none, ops3) => (none, ops1 ++ ops2 ++ ops3)
      | (some ce, ops3) =>
        (some (.wrap "chroot fallback" ce), ops1 ++ ops2 ++ ops3)

/-! ## Baseline mounts (`internal/fs/rootfs.go` 112-202) -/

def MS_RDONLY : Nat := 0x1
def MS_NOSUID : Nat := 0x2
def MS_NODEV : Nat := 0x4
def MS_NOEXEC : Nat := 0x8

/-- A mount configuration (`MountPoint` in the source). -/
structure MountPoint where
  source : String
  destination : String
  fstype : String
  options : List String
  flags : Nat
deriving DecidableEq, Repr

/-- The fixed baseline mount list of `CreateBasicMounts`. -/
def basicMounts : List MountPoint :=
  [ { source := "proc", destination := "/proc", fstype := "proc",
      options := [], flags := 0 },
    { source := "tmpfs", destination := "/dev", fstype := "tmpfs",
      options := ["nosuid", "strictatime", "mode=755", "size=65536k"],
      flags := MS_NOSUID },
    { source := "devpts", destination := "/dev/pts", fstype := "devpts",
      options := ["nosuid", "noexec", "newinstance", "ptmxmode=0666", "mode=0620"],
      flags := MS_NOSUID ||| MS_NOEXEC },
    { source := "tmpfs", destination := "/dev/shm", fstype := "tmpfs",
      options := ["nosuid", "noexec", "nodev", "mode=1777", "size=65536k"],
      flags := MS_NOSUID ||| MS_NOEXEC ||| MS_NODEV },
    { source := "sysfs", destination := "/sys", fstype := "sysfs",
      options := ["nosuid", "noexec", "nodev", "ro"],
      flags := MS_NOSUID ||| MS_NOEXEC ||| MS_NODEV ||| MS_RDONLY } ]

/-- Per-destination outcomes for the mount step. -/
structure MountWorld where
  mkdirErr : String → Option Nat
  mountErr : String → Option Nat

/-- Operations of the shared container-initialization sequence. -/
inductive InitOp
  | setHostnameCall
  | fsOp (op : FsOp)
  | mkdirMountPoint (dest : String)
  | mountSyscall (dest : String)
  | chdirWorkdir (dir : String)
  | execSyscall
deriving DecidableEq, Repr

/-- `createMount`: create the destination directory, then mount. -/
def createMount (m : MountPoint) (w : MountWorld) : Option GoErr × List InitOp :=
  match w.mkdirErr m.destination with
  | some code =>
    (some (.pathErr "create mount point" m.destination code),
      [.mkdirMountPoint m.destination])
  | none =>
    match w.mountErr m.destination with
    | some code =>
      (some (.opErr "mount" code),
        [.mkdirMountPoint m.destination, .mountSyscall m.destination])
    | none => (none, [.mkdirMountPoint m.destination, .mountSyscall m.destination])

/-- The loop of `CreateBasicMounts` over a mount list: abort on the
first failure, wrapped with the failing destination. -/
def createMountList (w : MountWorld) : List MountPoint → Option GoErr × List InitOp
  | [] => (none, [])
  | m :: rest =>
    match createMount m w with
    | (some e, tr) => (some (.wrap ("create mount " ++ m.destination) e), tr)
    | (none, tr) =>
      match createMountList w rest with
      | (r, tr2) => (r, tr ++ tr2)

/-- `CreateBasicMounts`: the loop applied to the fixed baseline list. -/
def CreateBasicMounts (w : MountWorld) : Option GoErr × List InitOp :=
  createMountList w basicMounts

/-! ## Container process (`internal/proc/container.go`) -/

/-- The parsed bundle configuration fields the core consumes
(`internal/spec/config.go`).  `processEnv` is an `Option` because Go
distinguishes a nil `Env` slice (key absent) from a present-but-empty
one. -/
structure GoConfig where
  processArgs : List String
  processEnv : Option (List String)
  processCwd : String
  rootPath : String
  rootReadonly : Bool
  hostname : String
  namespaces : List String
deriving DecidableEq, Repr

/-- `Config.GetRootfsPath`. -/
def GetRootfsPath (c : GoConfig) (bundleDir : String) : String :=
  if isAbsPath c.rootPath then c.rootPath else joinPath bundleDir c.rootPath

/-- `ContainerProcess` (the fields `initContainer`/`execProcess`
read). -/
structure ContainerProcess where
  config : GoConfig
  bundleDir : String
  hostname : String
  args : List String
  env : Option (List String)
  workingDir : String
deriving DecidableEq, Repr

/-- Oracle for the initialization sequence. -/
structure InitWorld where
  fs : FsWorld
  sethostnameErr : Option Nat
  mounts : MountWorld
  chdirWorkErr : Option Nat
  execErr : Option Nat

/-- Result of the initialization sequence: either the process image is
replaced by the target binary (`syscall.Exec` succeeded; nothing after
it runs) or a fatal error is returned. -/
inductive InitResult
  | replaced (binary : String) (argv : List String) (env : List String)
  | failed (e : GoErr)
deriving DecidableEq, Repr

/-- The default environment `execProcess` substitutes when the
configured environment is nil. -/
def defaultEnv : List String :=
  ["PATH=/usr/local/sbin:/usr/local/bin:/usr/sbin:/usr/bin:/sbin:/bin"]

/-- `execProcess`: error on an empty argument list before any exec
attempt; substitute the default PATH environment exactly when the
environment is nil (`none`), passing a present-but-empty list through
unchanged; then replace the process image via `syscall.Exec`. -/
def execProcess (args : List String) (env : Option (List String))
    (execErr : Option Nat) : InitResult × List InitOp :=
  match args with
  | [] => (.failed (.simpleErr "exec process" "no command specified"), [])
  | binary :: _ =>
    let e := match env with
      | none => defaultEnv
      | some es => es
    match execErr with
    | some code => (.failed (.opErr "exec process" code), [.execSyscall])
    | none => (.replaced binary args e, [.execSyscall])

/-- `initContainer`: set hostname if configured, switch root, provision
baseline mounts, change to the working directory if set, exec the
target process. -/
def initContainer (cp : ContainerProcess) (w : InitWorld) :
    InitResult × List InitOp :=
  let hostnameStep : Option GoErr × List InitOp :=
    if cp.hostname ≠ "" then
      match w.sethostnameErr with
      | some code =>
        (some (.wrap "set hostname" (.opErr "set hostname" code)),
          [.setHostnameCall])
      | none => (none, [.setHostnameCall])
    else (none, [])
  match hostnameStep with
  | (some e, tr) => (.failed e, tr)
  | (none, tr0) =>
    match SwitchRoot (GetRootfsPath cp.config cp.bundleDir) w.fs with
    | (some e, trf) => (.failed (.wrap "switch root" e), tr0 ++ trf.map .fsOp)
    | (none, trf) =>
      match CreateBasicMounts w.mounts with
      | (some e, trm) =>
        (.failed (.wrap "create basic mounts" e), tr0 ++ trf.map .fsOp ++ trm)
      | (none, trm) =>
        let chdirStep : Option GoErr × List InitOp :=
          if cp.workingDir ≠ "" then
            match w.chdirWorkErr with
            | some code =>
              (some (.pathErr "change working directory" cp.workingDir code),
                [.chdirWorkdir cp.workingDir])
            | none => (none, [.chdirWorkdir cp.workingDir])
          else (none, [])
        match chdirStep with
        | (some e, trc) => (.failed e, tr0 ++ trf.map .fsOp ++ trm ++ trc)
        | (none, trc) =>
          match execProcess cp.args cp.env w.execErr with
          | (out, tre) => (out, tr0 ++ trf.map .fsOp ++ trm ++ trc ++ tre)

/-! ## Re-exec path (`runWithPIDNamespace`, container.go 99-164) -/

/-- Oracle for the parent side of the re-exec path. -/
structure RunWorld where
  pipeErr : Option Nat
  startErr : Option Nat
  addProcessErr : Option Nat
  waitErr : Option Nat
  cleanupErr : Option Nat
deriving DecidableEq, Repr

/-- Operations of the parent side of the re-exec path. -/
inductive RunOp
  | createPipe
  | startChild
  | addProcessToCgroup
  | waitChild
  | cleanupCgroup
deriving DecidableEq, Repr

/-- `runWithPIDNamespace`, control-flow model: create the pipe, start
the child (carrying the clone flags and the encoded state), add it to
the cgroup when one is configured (warning-only), wait for it, and
clean the cgroup up afterwards on both the failure branch (result of
`Cleanup` discarded) and the success branch (warning-only). -/
def runWithPIDNamespace (cgroupConfigured : Bool) (w : RunWorld) :
    Option GoErr × List RunOp :=
  match w.pipeErr with
  | some code => (some (.opErr "create pipe" code), [.createPipe])
  | none =>
    match w.startErr with
    | some code =>
      (some (.opErr "start container process" code), [.createPipe, .startChild])
    | none =>
      let pre := [RunOp.createPipe, RunOp.startChild] ++
        (if cgroupConfigured then [RunOp.addProcessToCgroup] else [])
      match w.waitErr with
      | some code =>
        if cgroupConfigured then
          (some (.opErr "wait for container process" code),
            pre ++ [.waitChild, .cleanupCgroup])
        else
          (some (.opErr "wait for container process" code), pre ++ [.waitChild])
      | none =>
        if cgroupConfigured then (none, pre ++ [.waitChild, .cleanupCgroup])
        else (none, pre ++ [.waitChild])

/-! ## Cgroup manager (`internal/cg/cgroups.go`) -/

/-- `ResourceLimits` (cgroups.go 20-26); int64/int fields modelled as
`Int`. -/
structure ResourceLimits where
  CPUQuota : Int
  CPUPeriod : Int
  Memory : Int
  Pids : Int
deriving DecidableEq, Repr

/-- `defaultCPUPeriod` (cgroups.go 29). -/
def defaultCPUPeriod : Int := 100000

/-- The limit files a cgroup write can target. -/
inductive CgFile
  | cpuMax
  | memoryMax
  | pidsMax
deriving DecidableEq, Repr

/-- Per-file write outcomes for `ApplyLimits`. -/
structure CgWorld where
  writeErr : CgFile → Option Nat

/-- `setCPULimit`: substitute the default period when the period is
zero and write `"<quota> <period>"` to `cpu.max`. -/
def setCPULimit (quota period : Int) (w : CgWorld) :
    Option GoErr × List (CgFile × String) :=
  let period2 := if period = 0 then defaultCPUPeriod else period
  let v := toString quota ++ " " ++ toString period2
  match w.writeErr .cpuMax with
  | some code => (some (.pathErr "write cpu.max" "cpu.max" code), [(.cpuMax, v)])
  | none => (none, [(.cpuMax, v)])

/-- `setMemoryLimit`: write the decimal limit to `memory.max`. -/
def setMemoryLimit (limit : Int) (w : CgWorld) :
    Option GoErr × List (CgFile × String) :=
  match w.writeErr .memoryMax with
  | some code =>
    (some (.pathErr "write memory.max" "memory.max" code), [(.memoryMax, toString limit)])
  | none => (none, [(.memoryMax, toString limit)])

/-- `setPidsLimit`: write the decimal limit to `pids.max`. -/
def setPidsLimit (limit : Int) (w : CgWorld) :
    Option GoErr × List (CgFile × String) :=
  match w.writeErr .pidsMax with
  | some code =>
    (some (.pathErr "write pids.max" "pids.max" code), [(.pidsMax, toString limit)])
  | none => (none, [(.pidsMax, toString limit)])

/-- `ApplyLimits`: write `cpu.max` only if the quota is positive,
`memory.max` only if the memory limit is positive, `pids.max` only if
the pid limit is positive; each write is fatal on failure (wrapped
with its own operation name) and aborts the remaining writes. -/
def ApplyLimits (limits : ResourceLimits) (w : CgWorld) :
    Option GoErr × List (CgFile × String) :=
  let step1 : Option GoErr × List (CgFile × String) :=
    if limits.CPUQuota > 0 then
      match setCPULimit limits.CPUQuota limits.CPUPeriod w with
      | (some e, tr) => (some (.wrap "set CPU limit" e), tr)
      | (none, tr) => (none, tr)
    else (none, [])
  match step1 with
  | (some e, tr) => (some e, tr)
  | (none, tr1) =>
    let step2 : Option GoErr × List (CgFile × String) :=
      if limits.Memory > 0 then
        match setMemoryLimit limits.Memory w with
        | (some e, tr) => (some (.wrap "set memory limit" e), tr)
        | (none, tr) => (none, tr)
      else (none, [])
    match step2 with
    | (some e, tr) => (some e, tr1 ++ tr)
    | (none, tr2) =>
      let step3 : Option GoErr × List (CgFile × String) :=
        if limits.Pids > 0 then
          match setPidsLimit limits.Pids w with
          | (some e, tr) => (some (.wrap "set pids limit" e), tr)
          | (none, tr) => (none, tr)
        else (none, [])
      match step3 with
      | (some e, tr) => (some e, tr1 ++ tr2 ++ tr)
      | (none, tr3) => (none, tr1 ++ tr2 ++ tr3)

/-! ## Cgroup stats (`GetStats`, cgroups.go 219-305) -/

/-- `strconv.ParseInt(s, 10, 64)` (also `strconv.Atoi` on a 64-bit
platform): optional sign, one or more decimal digits, 64-bit range
check. -/
def goParseInt64 (s : String) : Option Int :=
  let p : Bool × List Char :=
    match s.data with
    | '+' :: rest => (false, rest)
    | '-' :: rest => (true, rest)
    | rest => (false, rest)
  let ds := p.2
  if ds.isEmpty then none
  else
    match ds.foldlM
      (fun acc c => if c.isDigit then some (acc * 10 + (c.toNat - 48)) else none)
      (0 : Nat) with
    | none => none
    | some n =>
      let v : Int := if p.1 then -(n : Int) else (n : Int)
      if v < -(2 ^ 63) ∨ v > 2 ^ 63 - 1 then none else some v

/-- `strings.Fields`: whitespace-separated fields. -/
def goFields (s : String) : List String :=
  (s.split (fun c => c.isWhitespace)).filter (fun f => f ≠ "")

/-- The scan of `readCPUStat` over the lines of `cpu.stat`: the first
`usage_usec`-prefixed line with at least two fields whose second field
parses is returned; otherwise zero. -/
def usageFromLines : List String → Int
  | [] => 0
  | line :: rest =>
    if line.startsWith "usage_usec" then
      match goFields line with
      | _ :: f1 :: _ =>
        match goParseInt64 f1 with
        | some v => v
        | none => usageFromLines rest
      | _ => usageFromLines rest
    else usageFromLines rest

/-- Readable stat-file contents; `none` models a read failure. -/
structure StatsWorld where
  cpuStat : Option String
  memoryCurrent : Option String
  pidsCurrent : Option String
deriving DecidableEq, Repr

/-- `ResourceStats` (cgroups.go 316-321). -/
structure ResourceStats where
  CPUUsage : Int
  MemoryUsage : Int
  PidsCount : Int
deriving DecidableEq, Repr

/-- `readCPUStat`: fails only if `cpu.stat` is unreadable; otherwise
scans for `usage_usec`. -/
def readCPUStat (w : StatsWorld) : Option Int :=
  match w.cpuStat with
  | none => none
  | some data => some (usageFromLines (data.splitOn "\n"))

/-- `readMemoryStat`: parse the trimmed contents of `memory.current`;
read and parse failures are both errors. -/
def readMemoryStat (w : StatsWorld) : Option Int :=
  match w.memoryCurrent with
  | none => none
  | some data => goParseInt64 data.trim

/-- `readPidsStat`: parse the trimmed contents of `pids.current`. -/
def readPidsStat (w : StatsWorld) : Option Int :=
  match w.pidsCurrent with
  | none => none
  | some data => goParseInt64 data.trim

/-- `GetStats`: best-effort; every read failure only logs a warning
and leaves the zero-initialized field untouched, and the returned
error is always nil. -/
def GetStats (w : StatsWorld) : ResourceStats × Option GoErr :=
  let s0 : ResourceStats := ⟨0, 0, 0⟩
  let s1 := match readCPUStat w with
    | some v => { s0 with CPUUsage := v }
    | none => s0
  let s2 := match readMemoryStat w with
    | some v => { s1 with MemoryUsage := v }
    | none => s1
  let s3 := match readPidsStat w with
    | some v => { s2 with PidsCount := v }
    | none => s2
  (s3, none)

end Gomini

namespace Gomini

/-- C4 helper: `CloneFlags` written as a right fold of bitwise OR over
the enabled-member list. -/
theorem cloneFlags_eq_foldr (nc : NamespaceConfig) :
    CloneFlags nc =
      (enabledMembers nc).foldr (fun m acc => memberFlag m ||| acc) 0 := by
  cases nc with
  | mk u p m i n us =>
    cases u <;> cases p <;> cases m <;> cases i <;> cases n <;> cases us <;> rfl

end Gomini

/-- C4: for every `NamespaceConfig`, `CloneFlags` equals the bitwise OR
of exactly the enabled members' platform flags, independent of the
order the members are considered in (any permutation of the enabled
member list folds to the same value), and it is zero when all six
booleans are false. -/
theorem C4_cloneFlags_or_of_enabled (nc : Gomini.NamespaceConfig) :
    Gomini.CloneFlags nc =
      (Gomini.enabledMembers nc).foldr
        (fun m acc => Gomini.memberFlag m ||| acc) 0 ∧
    (∀ l : List Gomini.NsMember, l.Perm (Gomini.enabledMembers nc) →
      l.foldr (fun m acc => Gomini.memberFlag m ||| acc) 0 =
        Gomini.CloneFlags nc) ∧
    (nc.UTS = false → nc.PID = false → nc.Mount = false → nc.IPC = false →
      nc.Net = false → nc.User = false → Gomini.CloneFlags nc = 0) := by
  refine ⟨Gomini.cloneFlags_eq_foldr nc, ?_, ?_⟩
  · intro l hperm
    rw [Gomini.cloneFlags_eq_foldr nc]
    have lcomm : LeftCommutative
        (fun (m : Gomini.NsMember) (acc : Nat) =>
          Gomini.memberFlag m ||| acc) := by
      constructor
      intro a b c
      simp only [← Nat.or_assoc]
      rw [Nat.or_comm (Gomini.memberFlag a) (Gomini.memberFlag b)]
    exact hperm.foldr_eq 0
  · intro hu hp hm hi hn hus
    cases nc
    simp_all [Gomini.CloneFlags]

/-- C4 witness: concrete instance with UTS, PID and Mount enabled, and
a reordered member list. -/
theorem C4_cloneFlags_or_of_enabled_witness :
    Gomini.CloneFlags ⟨true, true, true, false, false, false⟩ =
      [Gomini.NsMember.mount, Gomini.NsMember.uts, Gomini.NsMember.pid].foldr
        (fun m acc => Gomini.memberFlag m ||| acc) 0 := by
  have h := C4_cloneFlags_or_of_enabled ⟨true, true, true, false, false, false⟩
  exact (h.2.1 [Gomini.NsMember.mount, Gomini.NsMember.uts, Gomini.NsMember.pid]
    (by decide)).symm

/-- C3: exit-status translation, for every wait status: an exited
status (low seven bits zero) yields its exit code (`ExitStatus`,
a value in 0-255) unchanged — in particular the status word
`code * 256` yields `code` for every `code ≤ 255`, so 0 yields 0
and 42 yields 42; a signaled status (low seven bits the signal
number, neither 0 nor 0x7F, bit 7 an optional core-dump flag) yields
128 + signal, so signal 9 yields 137; every other status yields the
fatal "unexpected child status" error. -/
theorem C3_translate_exit_status (e s w code sig : Nat)
    (hexited : Gomini.waitStatusExited e = true)
    (hsignaled : Gomini.waitStatusSignaled s = true)
    (hcode : code ≤ 255) (hsig0 : 0 < sig) (hsig : sig < 127)
    (hother : w % 128 = 127) :
    Gomini.translateExitStatus e = .ok (Gomini.waitStatusExitStatus e) ∧
    Gomini.waitStatusExitStatus e ≤ 255 ∧
    Gomini.translateExitStatus s = .ok (128 + Gomini.waitStatusSignal s) ∧
    Gomini.translateExitStatus (code * 256) = .ok code ∧
    Gomini.translateExitStatus sig = .ok (128 + sig) ∧
    Gomini.translateExitStatus (sig + 128) = .ok (128 + sig) ∧
    Gomini.translateExitStatus w =
      .error "wait for child: unexpected child status" := by
  refine ⟨?_, ?_, ?_, ?_, ?_, ?_, ?_⟩
  · simp [Gomini.translateExitStatus, hexited]
  · have : Gomini.waitStatusExitStatus e < 256 := Nat.mod_lt _ (by norm_num)
    omega
  · have hex2 : Gomini.waitStatusExited s = false := by
      simp only [Gomini.waitStatusSignaled, Bool.and_eq_true, bne_iff_ne,
        ne_eq] at hsignaled
      simp [Gomini.waitStatusExited, hsignaled.2]
    simp [Gomini.translateExitStatus, hex2, hsignaled]
  · have hex : Gomini.waitStatusExited (code * 256) = true := by
      simp [Gomini.waitStatusExited]; omega
    have h2 : code * 256 / 256 % 256 = code := by
      rw [Nat.mul_div_cancel _ (by norm_num)]
      exact Nat.mod_eq_of_lt (by omega)
    simp [Gomini.translateExitStatus, hex, Gomini.waitStatusExitStatus, h2]
    omega
  · have h1 : sig % 128 = sig := Nat.mod_eq_of_lt (by omega)
    have hex : Gomini.waitStatusExited sig = false := by
      simp [Gomini.waitStatusExited, h1]; omega
    have hsg : Gomini.waitStatusSignaled sig = true := by
      simp [Gomini.waitStatusSignaled, h1]; omega
    simp [Gomini.translateExitStatus, hex, hsg, Gomini.waitStatusSignal, h1]
  · have h1 : (sig + 128) % 128 = sig := by omega
    have hex : Gomini.waitStatusExited (sig + 128) = false := by
      simp [Gomini.waitStatusExited, h1]; omega
    have hsg : Gomini.waitStatusSignaled (sig + 128) = true := by
      simp [Gomini.waitStatusSignaled, h1]; omega
    simp [Gomini.translateExitStatus, hex, hsg, Gomini.waitStatusSignal, h1]
  · have hex : Gomini.waitStatusExited w = false := by
      simp [Gomini.waitStatusExited, hother]
    have hsg : Gomini.waitStatusSignaled w = false := by
      simp [Gomini.waitStatusSignaled, hother]
    simp [Gomini.translateExitStatus, hex, hsg]

/-- C3 witness: concrete statuses — exit code 42, kill by signal 9
(status word 9, and 137 with the core-dump bit), and the stop status
0x057F on the error branch. -/
theorem C3_translate_exit_status_witness :
    Gomini.translateExitStatus (42 * 256) =
      .ok (Gomini.waitStatusExitStatus (42 * 256)) ∧
    Gomini.translateExitStatus 9 = .ok (128 + Gomini.waitStatusSignal 9) ∧
    Gomini.translateExitStatus (42 * 256) = .ok 42 ∧
    Gomini.translateExitStatus 9 = .ok 137 ∧
    Gomini.translateExitStatus (9 + 128) = .ok 137 ∧
    Gomini.translateExitStatus 0x057F =
      .error "wait for child: unexpected child status" :=
  have h := C3_translate_exit_status (42 * 256) 9 0x057F 42 9
    (by decide) (by decide) (by decide) (by decide) (by decide) (by decide)
  ⟨h.1, h.2.2.1, h.2.2.2.1, h.2.2.2.2.1, h.2.2.2.2.2.1, h.2.2.2.2.2.2⟩

namespace Gomini

/-- Round-trip of one hex digit. -/
theorem hexDigit_roundtrip : ∀ k < 16, parseHexDigit (hexDigitChar k) = some k := by
  decide

/-- Parsing the encoding of one character prepends that character. -/
theorem psb_encodeChar (c : Char) (tail : List Char) :
    parseStringBody (encodeChar c ++ tail) =
      (parseStringBody tail).map (fun p => (c :: p.1, p.2)) := by
  rw [encodeChar]
  by_cases h1 : c = '"'
  · subst h1; simp [parseStringBody, unescapeChar]
  rw [if_neg h1]
  by_cases h2 : c = '\\'
  · subst h2; simp [parseStringBody, unescapeChar]
  rw [if_neg h2]
  by_cases h3 : c = '\n'
  · subst h3; simp [parseStringBody, unescapeChar]
  rw [if_neg h3]
  by_cases h4 : c = '\r'
  · subst h4; simp [parseStringBody, unescapeChar]
  rw [if_neg h4]
  by_cases h5 : c = '\t'
  · subst h5; simp [parseStringBody, unescapeChar]
  rw [if_neg h5]
  by_cases h6 : c.toNat < 0x20 ∨ c = '<' ∨ c = '>' ∨ c = '&'
  · rw [if_pos h6]
    have hlt : c.toNat < 256 := by
      rcases h6 with h | rfl | rfl | rfl
      · omega
      · decide
      · decide
      · decide
    have h0 : parseHexDigit '0' = some 0 := by decide
    have hd1 : parseHexDigit (hexDigitChar (c.toNat / 16)) = some (c.toNat / 16) :=
      hexDigit_roundtrip _ (by omega)
    have hd2 : parseHexDigit (hexDigitChar (c.toNat % 16)) = some (c.toNat % 16) :=
      hexDigit_roundtrip _ (by omega)
    have hx : c.toNat / 16 * 16 + c.toNat % 16 = c.toNat := by omega
    have hsur : ¬ (0xD800 ≤ c.toNat ∧ c.toNat < 0xE000) := by omega
    simp only [parseStringBody, List.cons_append, h0, hd1, hd2]
    simp [hx, hsur, Char.ofNat_toNat]
  rw [if_neg h6]
  have d0 : parseHexDigit '0' = some 0 := by decide
  have d2 : parseHexDigit '2' = some 2 := by decide
  have d8 : parseHexDigit '8' = some 8 := by decide
  have d9 : parseHexDigit '9' = some 9 := by decide
  by_cases h7 : c.toNat = 0x2028
  · rw [if_pos h7]
    have hc : c = Char.ofNat 0x2028 := by
      rw [← h7, Char.ofNat_toNat]
    simp only [parseStringBody, List.cons_append, d0, d2, d8]
    norm_num [hc]
  rw [if_neg h7]
  by_cases h8 : c.toNat = 0x2029
  · rw [if_pos h8]
    have hc : c = Char.ofNat 0x2029 := by
      rw [← h8, Char.ofNat_toNat]
    simp only [parseStringBody, List.cons_append, d0, d2, d9]
    norm_num [hc]
  rw [if_neg h8]
  simp [parseStringBody, h1, h2]

/-- Parsing the encoding of a string body consumes it up to the closing
quote. -/
theorem psb_encodeBody (s tail : List Char) :
    parseStringBody (encodeBody s ++ '"' :: tail) = some (s, tail) := by
  induction s with
  | nil => simp [encodeBody, parseStringBody]
  | cons c cs ih =>
    rw [encodeBody, List.append_assoc, psb_encodeChar, ih]
    rfl

end Gomini

namespace Gomini

/-- Parsing the encoding of a non-empty element list (followed by the
closing bracket) recovers the list, given sufficient fuel. -/
theorem parseElemsF_encodeElems :
    ∀ (args : List (List Char)) (fuel : Nat) (tail : List Char),
      args ≠ [] → args.length ≤ fuel →
      parseElemsF fuel (encodeElems args ++ ']' :: tail) = some (args, tail) := by
  intro args
  induction args with
  | nil => intro fuel tail h; exact absurd rfl h
  | cons s rest ih =>
    intro fuel tail _ hfuel
    obtain ⟨f, rfl⟩ : ∃ f, fuel = f + 1 :=
      ⟨fuel - 1, by simp only [List.length_cons] at hfuel; omega⟩
    cases rest with
    | nil =>
      show parseElemsF (f + 1) (encodeString s ++ ']' :: tail) = _
      rw [encodeString]
      simp only [parseElemsF, List.cons_append, List.append_assoc,
        List.singleton_append]
      rw [psb_encodeBody]
      simp
    | cons s2 rest2 =>
      show parseElemsF (f + 1)
        ((encodeString s ++ ',' :: encodeElems (s2 :: rest2)) ++ ']' :: tail) = _
      rw [encodeString]
      simp only [parseElemsF, List.cons_append, List.append_assoc,
        List.singleton_append]
      rw [psb_encodeBody]
      have hnext := ih f tail (by simp)
        (by simp only [List.length_cons] at hfuel ⊢; omega)
      simp only [List.nil_append]
      simp [hnext]

/-- The encoded element list is at least as long as the element list. -/
theorem encodeElems_length_ge (args : List (List Char)) :
    args.length ≤ (encodeElems args).length := by
  induction args with
  | nil => simp [encodeElems]
  | cons s rest ih =>
    cases rest with
    | nil => simp [encodeElems, encodeString]
    | cons s2 rest2 =>
      show (s :: s2 :: rest2).length ≤
        (encodeString s ++ ',' :: encodeElems (s2 :: rest2)).length
      simp only [encodeString, List.length_cons, List.length_append,
        List.length_singleton] at ih ⊢
      omega

/-- Decoding inverts encoding on every argument list. -/
theorem decodeArgs_encodeArgs (args : List (List Char)) :
    decodeArgs (encodeArgs args) = some args := by
  cases hargs : args with
  | nil => rfl
  | cons s rest =>
    have h2 : ∃ t, encodeElems (s :: rest) = '"' :: t := by
      cases rest with
      | nil => exact ⟨_, rfl⟩
      | cons a b => exact ⟨_, rfl⟩
    obtain ⟨t, ht⟩ := h2
    have hlen : (s :: rest).length ≤ ('"' :: (t ++ [']'])).length := by
      have h3 := encodeElems_length_ge (s :: rest)
      rw [ht] at h3
      simp at h3 ⊢
      omega
    have hparse := parseElemsF_encodeElems (s :: rest)
      (('"' :: (t ++ [']'])).length) [] (by simp) hlen
    rw [ht] at hparse
    simp only [List.cons_append] at hparse
    have hdef : decodeArgs ('[' :: '"' :: (t ++ [']'])) =
        (match parseElemsF ('"' :: (t ++ [']'])).length ('"' :: (t ++ [']'])) with
          | some (elems, r) => if r = [] then some elems else none
          | none => none) := rfl
    have henc : encodeArgs (s :: rest) = '[' :: '"' :: (t ++ [']']) := by
      rw [encodeArgs, ht]
      simp
    rw [henc, hdef, hparse]
    rfl

end Gomini

/-- C1: the structured argument encoding used across the re-exec
boundary (JSON marshal of the argument list into `GOMINI_ARGS`, JSON
unmarshal in `HandleContainerInit`) round-trips every argument list
exactly: decoding the encoding of any list yields the same list (hence
the same number of elements), and in particular the three-element list
`["sh", "-c", "echo hi there"]` round-trips to itself — the third
element's internal spaces are preserved, it is not split further. -/
theorem C1_json_args_roundtrip :
    (∀ args : List String,
      Gomini.unmarshalArgs (Gomini.marshalArgs args) = some args) ∧
    Gomini.unmarshalArgs (Gomini.marshalArgs ["sh", "-c", "echo hi there"]) =
      some ["sh", "-c", "echo hi there"] ∧
    (Gomini.unmarshalArgs
        (Gomini.marshalArgs ["sh", "-c", "echo hi there"])).map List.length =
      some 3 := by
  have huniv : ∀ args : List String,
      Gomini.unmarshalArgs (Gomini.marshalArgs args) = some args := by
    intro args
    rw [Gomini.unmarshalArgs, Gomini.marshalArgs]
    show (Gomini.decodeArgs (Gomini.encodeArgs (args.map String.data))).map _ = _
    rw [Gomini.decodeArgs_encodeArgs]
    have hid : String.mk ∘ String.data = id := funext fun s => rfl
    show some ((args.map String.data).map String.mk) = some args
    rw [List.map_map, hid, List.map_id]
  exact ⟨huniv, huniv _, by rw [huniv]; rfl⟩

/-- C2 counterexample: overriding the command with the string
`/bin/echo hi` does not produce the two-element list
`["/bin/echo", "hi"]`; `runCommand` builds the single-element list
containing the whole override string. -/
theorem C2_cmd_override_counterexample :
    Gomini.finalArgs "/bin/echo hi" [] ["/bin/sh"] = ["/bin/echo hi"] ∧
    Gomini.finalArgs "/bin/echo hi" [] ["/bin/sh"] ≠ ["/bin/echo", "hi"] := by
  constructor
  · rfl
  · decide

/-- C2 (amended): a non-empty `--cmd` override takes priority over
everything and yields the single-element list containing the override
string; when no override is given and positional arguments are
supplied, the final arguments equal the positional list; only when
neither is given are the bundle's default process arguments used. -/
theorem C2_cmd_override_precedence (cmd : String) (pos bundle : List String) :
    (cmd ≠ "" → Gomini.finalArgs cmd pos bundle = [cmd]) ∧
    (cmd = "" → pos ≠ [] → Gomini.finalArgs cmd pos bundle = pos) ∧
    (cmd = "" → pos = [] → Gomini.finalArgs cmd pos bundle = bundle) := by
  refine ⟨fun h => by simp [Gomini.finalArgs, h], fun h hp => ?_, fun h hp => ?_⟩
  · have hl : pos.length > 0 := List.length_pos.mpr hp
    simp [Gomini.finalArgs, h, hl]
  · simp [Gomini.finalArgs, h, hp]

/-- C2 witness: concrete instances of all three precedence branches. -/
theorem C2_cmd_override_precedence_witness :
    Gomini.finalArgs "/bin/echo hi" ["/bin/sh", "-c", "true"] ["/bin/sh"] =
      ["/bin/echo hi"] ∧
    Gomini.finalArgs "" ["/bin/sh", "-c", "true"] ["/bin/sh"] =
      ["/bin/sh", "-c", "true"] ∧
    Gomini.finalArgs "" [] ["/bin/sh"] = ["/bin/sh"] :=
  ⟨(C2_cmd_override_precedence "/bin/echo hi" ["/bin/sh", "-c", "true"]
      ["/bin/sh"]).1 (by decide),
   (C2_cmd_override_precedence "" ["/bin/sh", "-c", "true"] ["/bin/sh"]).2.1
      rfl (by decide),
   (C2_cmd_override_precedence "" [] ["/bin/sh"]).2.2 rfl rfl⟩

/-- C5: `SwitchRoot` runs `PrepareRootfs` first and fails if it fails;
otherwise it runs `PivotRoot`, and on pivot failure it calls
`ChrootFallback` (whose trace follows the pivot trace) instead of
returning the pivot error; it succeeds exactly when preparation
succeeds and pivot or fallback succeeds — in particular a pivot
failure followed by a successful fallback is a success. -/
theorem C5_switchroot_fallback (path : String) (w : Gomini.FsWorld) :
    ((Gomini.SwitchRoot path w).1 = none ↔
      (Gomini.PrepareRootfs path w).1 = none ∧
        ((Gomini.PivotRoot w).1 = none ∨
          (Gomini.ChrootFallback path w).1 = none)) ∧
    ((Gomini.PrepareRootfs path w).1 = none → (Gomini.PivotRoot w).1 = none →
      (Gomini.SwitchRoot path w).2 =
        (Gomini.PrepareRootfs path w).2 ++ (Gomini.PivotRoot w).2) ∧
    ((Gomini.PrepareRootfs path w).1 = none → (Gomini.PivotRoot w).1 ≠ none →
      (Gomini.SwitchRoot path w).2 =
        (Gomini.PrepareRootfs path w).2 ++ (Gomini.PivotRoot w).2 ++
          (Gomini.ChrootFallback path w).2) := by
  rcases hp : Gomini.PrepareRootfs path w with ⟨r1, ops1⟩
  rcases hv : Gomini.PivotRoot w with ⟨r2, ops2⟩
  rcases hc : Gomini.ChrootFallback path w with ⟨r3, ops3⟩
  cases r1 with
  | some e => simp [Gomini.SwitchRoot, hp, hv, hc]
  | none =>
    cases r2 with
    | none => simp [Gomini.SwitchRoot, hp, hv, hc]
    | some e2 =>
      cases r3 with
      | none => simp [Gomini.SwitchRoot, hp, hv, hc]
      | some e3 => simp [Gomini.SwitchRoot, hp, hv, hc]

/-- C5 witness: a world where pivot_root fails and the chroot fallback
succeeds; `SwitchRoot` succeeds and its trace shows the fallback ran
after the pivot attempt. -/
theorem C5_switchroot_fallback_witness :
    (Gomini.SwitchRoot "/bundle/rootfs"
        ⟨true, none, some 1, none, none, none, none, none, none⟩).1 = none ∧
    (Gomini.SwitchRoot "/bundle/rootfs"
        ⟨true, none, some 1, none, none, none, none, none, none⟩).2 =
      [.statRootfs, .mkdirOldRoot] ++ [.pivotSyscall] ++
        [.chdirRootfs, .chrootSyscall, .chdirSlash] :=
  ⟨(C5_switchroot_fallback "/bundle/rootfs"
      ⟨true, none, some 1, none, none, none, none, none, none⟩).1.mpr
      ⟨rfl, Or.inr rfl⟩,
   (C5_switchroot_fallback "/bundle/rootfs"
      ⟨true, none, some 1, none, none, none, none, none, none⟩).2.2
      rfl (by decide)⟩

/-- C6: when the rootfs path does not exist, `SwitchRoot` fails with a
(wrapped) not-found error coming from the prepare step, its trace is
the single stat probe — no pivot_root or chroot syscall is attempted
and the `.old_root` staging directory is not created — and the whole
initialization sequence fails before any mount is attempted. -/
theorem C6_switchroot_rootfs_missing (cp : Gomini.ContainerProcess)
    (w : Gomini.InitWorld) (hroot : w.fs.rootfsExists = false)
    (hhn : w.sethostnameErr = none) :
    Gomini.SwitchRoot (Gomini.GetRootfsPath cp.config cp.bundleDir) w.fs =
      (some (.wrap "prepare rootfs" (.notFound "prepare rootfs"
        (Gomini.GetRootfsPath cp.config cp.bundleDir))), [.statRootfs]) ∧
    (Gomini.GoErr.wrap "prepare rootfs" (.notFound "prepare rootfs"
      (Gomini.GetRootfsPath cp.config cp.bundleDir))).isNotFound = true ∧
    (Gomini.initContainer cp w).1 =
      .failed (.wrap "switch root" (.wrap "prepare rootfs"
        (.notFound "prepare rootfs"
          (Gomini.GetRootfsPath cp.config cp.bundleDir)))) ∧
    (Gomini.initContainer cp w).2 =
      (if cp.hostname ≠ "" then [Gomini.InitOp.setHostnameCall] else []) ++
        [.fsOp .statRootfs] ∧
    (∀ d, Gomini.InitOp.mountSyscall d ∉ (Gomini.initContainer cp w).2) ∧
    Gomini.InitOp.fsOp .pivotSyscall ∉ (Gomini.initContainer cp w).2 ∧
    Gomini.InitOp.fsOp .chrootSyscall ∉ (Gomini.initContainer cp w).2 ∧
    Gomini.InitOp.fsOp .mkdirOldRoot ∉ (Gomini.initContainer cp w).2 := by
  have hprep : Gomini.PrepareRootfs
      (Gomini.GetRootfsPath cp.config cp.bundleDir) w.fs =
      (some (.notFound "prepare rootfs"
        (Gomini.GetRootfsPath cp.config cp.bundleDir)), [.statRootfs]) := by
    simp [Gomini.PrepareRootfs, hroot]
  have hsw : Gomini.SwitchRoot
      (Gomini.GetRootfsPath cp.config cp.bundleDir) w.fs =
      (some (.wrap "prepare rootfs" (.notFound "prepare rootfs"
        (Gomini.GetRootfsPath cp.config cp.bundleDir))), [.statRootfs]) := by
    simp [Gomini.SwitchRoot, hprep]
  have hinit : Gomini.initContainer cp w =
      (.failed (.wrap "switch root" (.wrap "prepare rootfs"
        (.notFound "prepare rootfs"
          (Gomini.GetRootfsPath cp.config cp.bundleDir)))),
        (if cp.hostname ≠ "" then [Gomini.InitOp.setHostnameCall] else []) ++
          [.fsOp .statRootfs]) := by
    by_cases hh : cp.hostname = ""
    · simp [Gomini.initContainer, hh, hsw]
    · simp [Gomini.initContainer, hh, hhn, hsw]
  refine ⟨hsw, rfl, by rw [hinit], by rw [hinit], ?_, ?_, ?_, ?_⟩ <;>
    rw [hinit] <;> by_cases hh : cp.hostname = "" <;> simp [hh]

/-- C6 witness: a concrete configuration and world with an absent
rootfs; the initialization trace is exactly the hostname call followed
by the stat probe. -/
theorem C6_switchroot_rootfs_missing_witness :
    Gomini.SwitchRoot
      (Gomini.GetRootfsPath
        ⟨["/bin/sh"], none, "/", "rootfs", false, "box", ["pid"]⟩ "/b") 
      ⟨false, none, none, none, none, none, none, none, none⟩ =
      (some (.wrap "prepare rootfs" (.notFound "prepare rootfs"
        (Gomini.GetRootfsPath
          ⟨["/bin/sh"], none, "/", "rootfs", false, "box", ["pid"]⟩ "/b"))),
        [.statRootfs]) ∧
    (Gomini.initContainer
      ⟨⟨["/bin/sh"], none, "/", "rootfs", false, "box", ["pid"]⟩, "/b", "box",
        ["/bin/sh"], none, "/"⟩
      ⟨⟨false, none, none, none, none, none, none, none, none⟩, none,
        ⟨fun _ => none, fun _ => none⟩, none, none⟩).2 =
      [Gomini.InitOp.setHostnameCall, .fsOp .statRootfs] := by
  have h := C6_switchroot_rootfs_missing
    ⟨⟨["/bin/sh"], none, "/", "rootfs", false, "box", ["pid"]⟩, "/b", "box",
      ["/bin/sh"], none, "/"⟩
    ⟨⟨false, none, none, none, none, none, none, none, none⟩, none,
      ⟨fun _ => none, fun _ => none⟩, none, none⟩
    rfl rfl
  refine ⟨h.1, ?_⟩
  rw [h.2.2.2.1]
  decide

/-- C7: `ApplyLimits` writes `cpu.max` (content `"<quota> <period>"`,
with the default period 100000 substituted when the period is zero)
only if the CPU quota is positive, `memory.max` only if the memory
limit is positive, and `pids.max` only if the pid limit is positive;
in particular for limits {cpuQuota 0, period 0, memory 0, pids 5} the
write trace is exactly the one `pids.max` write, `cpu.max` and
`memory.max` untouched. -/
theorem C7_applylimits_conditional_writes (limits : Gomini.ResourceLimits)
    (w v2 : Gomini.CgWorld) :
    (∀ v, (Gomini.CgFile.cpuMax, v) ∈ (Gomini.ApplyLimits limits w).2 →
      limits.CPUQuota > 0 ∧
      v = toString limits.CPUQuota ++ " " ++
        toString (if limits.CPUPeriod = 0 then Gomini.defaultCPUPeriod
          else limits.CPUPeriod)) ∧
    (∀ v, (Gomini.CgFile.memoryMax, v) ∈ (Gomini.ApplyLimits limits w).2 →
      limits.Memory > 0 ∧ v = toString limits.Memory) ∧
    (∀ v, (Gomini.CgFile.pidsMax, v) ∈ (Gomini.ApplyLimits limits w).2 →
      limits.Pids > 0 ∧ v = toString limits.Pids) ∧
    (Gomini.ApplyLimits ⟨0, 0, 0, 5⟩ v2).2 = [(.pidsMax, "5")] := by
  refine ⟨?_, ?_, ?_, ?_⟩
  · intro v hv
    by_cases h1 : limits.CPUQuota > 0 <;>
      by_cases h2 : limits.Memory > 0 <;>
      by_cases h3 : limits.Pids > 0 <;>
      rcases hw1 : w.writeErr .cpuMax with _ | c1 <;>
      rcases hw2 : w.writeErr .memoryMax with _ | c2 <;>
      rcases hw3 : w.writeErr .pidsMax with _ | c3 <;>
      simp [Gomini.ApplyLimits, Gomini.setCPULimit, Gomini.setMemoryLimit,
        Gomini.setPidsLimit, h1, h2, h3, hw1, hw2, hw3] at hv <;>
      simp_all
  · intro v hv
    by_cases h1 : limits.CPUQuota > 0 <;>
      by_cases h2 : limits.Memory > 0 <;>
      by_cases h3 : limits.Pids > 0 <;>
      rcases hw1 : w.writeErr .cpuMax with _ | c1 <;>
      rcases hw2 : w.writeErr .memoryMax with _ | c2 <;>
      rcases hw3 : w.writeErr .pidsMax with _ | c3 <;>
      simp [Gomini.ApplyLimits, Gomini.setCPULimit, Gomini.setMemoryLimit,
        Gomini.setPidsLimit, h1, h2, h3, hw1, hw2, hw3] at hv <;>
      simp_all
  · intro v hv
    by_cases h1 : limits.CPUQuota > 0 <;>
      by_cases h2 : limits.Memory > 0 <;>
      by_cases h3 : limits.Pids > 0 <;>
      rcases hw1 : w.writeErr .cpuMax with _ | c1 <;>
      rcases hw2 : w.writeErr .memoryMax with _ | c2 <;>
      rcases hw3 : w.writeErr .pidsMax with _ | c3 <;>
      simp [Gomini.ApplyLimits, Gomini.setCPULimit, Gomini.setMemoryLimit,
        Gomini.setPidsLimit, h1, h2, h3, hw1, hw2, hw3] at hv <;>
      simp_all
  · rcases hw3 : v2.writeErr .pidsMax with _ | c3 <;>
      simp [Gomini.ApplyLimits, Gomini.setCPULimit, Gomini.setMemoryLimit,
        Gomini.setPidsLimit, hw3] <;> decide

/-- C7 witness: with all writes succeeding and limits
{quota 20000, period 0, memory 64MiB, pids 10}, the only facts the
theorem yields at the concrete trace hold. -/
theorem C7_applylimits_conditional_writes_witness :
    (Gomini.ApplyLimits ⟨20000, 0, 67108864, 10⟩ ⟨fun _ => none⟩).2 =
      [(.cpuMax, "20000 100000"), (.memoryMax, "67108864"),
        (.pidsMax, "10")] ∧
    ((20000 : Int) > 0 ∧ "20000 100000" =
      toString (20000 : Int) ++ " " ++
        toString (if (0 : Int) = 0 then Gomini.defaultCPUPeriod else 0)) ∧
    (Gomini.ApplyLimits ⟨0, 0, 0, 5⟩ ⟨fun _ => none⟩).2 = [(.pidsMax, "5")] :=
  ⟨by decide,
   (C7_applylimits_conditional_writes ⟨20000, 0, 67108864, 10⟩
      ⟨fun _ => none⟩ ⟨fun _ => none⟩).1 "20000 100000" (by decide),
   (C7_applylimits_conditional_writes ⟨20000, 0, 67108864, 10⟩
      ⟨fun _ => none⟩ ⟨fun _ => none⟩).2.2.2⟩

/-- C8: `GetStats` never returns an error: for every combination of
readable and unreadable stat files the returned error is nil, and a
failure to read `cpu.stat`, `memory.current` or `pids.current` leaves
the corresponding field at zero — in particular an unreadable
`cpu.stat` yields CPU usage zero with no propagated error. -/
theorem C8_getstats_never_errors (w : Gomini.StatsWorld) :
    (Gomini.GetStats w).2 = none ∧
    (w.cpuStat = none → (Gomini.GetStats w).1.CPUUsage = 0) ∧
    (w.memoryCurrent = none → (Gomini.GetStats w).1.MemoryUsage = 0) ∧
    (w.pidsCurrent = none → (Gomini.GetStats w).1.PidsCount = 0) := by
  refine ⟨rfl, ?_, ?_, ?_⟩ <;> intro h <;>
    rcases hc : Gomini.readCPUStat w with _ | cv <;>
    rcases hm : Gomini.readMemoryStat w with _ | mv <;>
    rcases hp : Gomini.readPidsStat w with _ | pv <;>
    simp_all [Gomini.GetStats, Gomini.readCPUStat, Gomini.readMemoryStat,
      Gomini.readPidsStat]

/-- C8 witness: a cgroup whose `cpu.stat` is unreadable while the
other two files read normally. -/
theorem C8_getstats_never_errors_witness :
    (Gomini.GetStats ⟨none, some "67108864", some "12"⟩).2 = none ∧
    (Gomini.GetStats ⟨none, some "67108864", some "12"⟩).1.CPUUsage = 0 :=
  ⟨(C8_getstats_never_errors ⟨none, some "67108864", some "12"⟩).1,
   (C8_getstats_never_errors ⟨none, some "67108864", some "12"⟩).2.1 rfl⟩

/-- C9: on the re-exec path with cgroup management configured, once
the child was started, cgroup cleanup is performed after the wait on
both branches — the trace ends with the wait followed (eventually) by
the cleanup whether the wait reports success or failure — and the
overall result is an error exactly when the wait fails. -/
theorem C9_cleanup_on_both_branches (w : Gomini.RunWorld)
    (hpipe : w.pipeErr = none) (hstart : w.startErr = none) :
    (∃ pre post, (Gomini.runWithPIDNamespace true w).2 =
      pre ++ Gomini.RunOp.waitChild :: post ∧
      Gomini.RunOp.cleanupCgroup ∈ post) ∧
    ((Gomini.runWithPIDNamespace true w).1 = none ↔ w.waitErr = none) := by
  rcases hw : w.waitErr with _ | code <;>
    simp only [Gomini.runWithPIDNamespace, hpipe, hstart, hw] <;>
    refine ⟨⟨[.createPipe, .startChild, .addProcessToCgroup],
      [.cleanupCgroup], by simp, by simp⟩, by simp⟩

/-- C9 witness: a world whose wait reports a child failure; the
cleanup still appears after the wait in the trace. -/
theorem C9_cleanup_on_both_branches_witness :
    ∃ pre post,
      (Gomini.runWithPIDNamespace true ⟨none, none, none, some 3, none⟩).2 =
        pre ++ Gomini.RunOp.waitChild :: post ∧
      Gomini.RunOp.cleanupCgroup ∈ post :=
  (C9_cleanup_on_both_branches ⟨none, none, none, some 3, none⟩ rfl rfl).1

/-- C10: `execProcess` substitutes the default PATH-only environment
exactly when the configured environment is nil (`none`); a
present-but-empty environment list is passed to the target binary
unchanged (no PATH added); and an empty argument list yields the
"no command specified" error with an empty trace — the process image
replacement is never attempted. -/
theorem C10_execprocess_env_and_empty_args (binary : String)
    (rest env2 : List String) (execErr : Option Nat) :
    (∀ env : Option (List String),
      Gomini.execProcess [] env execErr =
        (.failed (.simpleErr "exec process" "no command specified"), [])) ∧
    (execErr = none →
      Gomini.execProcess (binary :: rest) none execErr =
        (.replaced binary (binary :: rest) Gomini.defaultEnv,
          [.execSyscall]) ∧
      Gomini.execProcess (binary :: rest) (some env2) execErr =
        (.replaced binary (binary :: rest) env2, [.execSyscall])) := by
  refine ⟨fun env => rfl, fun h => ?_⟩
  subst h
  exact ⟨rfl, rfl⟩

/-- C10 witness: empty argument list errors without an exec attempt; a
nil environment becomes the default PATH; a present-but-empty
environment stays empty. -/
theorem C10_execprocess_env_and_empty_args_witness :
    Gomini.execProcess [] (some ["A=1"]) none =
      (.failed (.simpleErr "exec process" "no command specified"), []) ∧
    Gomini.execProcess ["/bin/sh"] none none =
      (.replaced "/bin/sh" ["/bin/sh"] Gomini.defaultEnv, [.execSyscall]) ∧
    Gomini.execProcess ["/bin/sh"] (some []) none =
      (.replaced "/bin/sh" ["/bin/sh"] [], [.execSyscall]) :=
  ⟨(C10_execprocess_env_and_empty_args "/bin/sh" [] [] none).1 (some ["A=1"]),
   ((C10_execprocess_env_and_empty_args "/bin/sh" [] [] none).2 rfl).1,
   ((C10_execprocess_env_and_empty_args "/bin/sh" [] [] none).2 rfl).2⟩
